import Mathlib

/-!
Shallow embedding of `mp::basic_inplace_string<CharT, MaxSize, Traits>` from
`src/include/mp/inplace_string.h`.

Modelling decisions (all traceable to the source):
* The character type is modelled at `sizeof(CharT) == 1` (the `inplace_string`
  alias, `CharT = char`): code-unit values are natural numbers and the
  implementation size type `impl_size_type` is `std::uint8_t`, so the
  `static_cast<impl_size_type>` applied to the trailing slot is `% 256` and the
  class's `static_assert` requires `MaxSize ≤ 255`.
* `size_type` is `std::size_t`; the subtraction `max_size() - cast(back)` in
  `size()` is unsigned 64-bit arithmetic, modelled with an explicit `% 2^64`.
* The buffer `chars_` is a list of `MaxSize + 1` code units.
* A C++ member function that does not return normally is modelled as returning
  the state paired with `Option cpp_error`; in this source every `throw` (in
  the `size(size_type)` setter and in `at`) happens before any write, so on an
  abnormal outcome the returned state is the unmodified receiver.
* `assign(const_pointer, size_type)` and the raw-pointer/count constructor are
  declared `noexcept`: the `length_error` thrown inside them cannot reach a
  caller — a debug build aborts on the `assert`, an `NDEBUG` build calls
  `std::terminate` at the `noexcept` boundary.  Both are the `terminated`
  outcome: the program never returns, in any build mode, and nothing has been
  written.
* `append(const_pointer, size_type)` and `append(size_type, value_type)`
  compute `size() + n` in `size_t`, which wraps: the model applies `% 2^64` to
  the sum.  When the sum wraps and the wrapped value passes the capacity
  check, `append`'s subsequent `Traits::copy` of `n` characters runs far
  beyond the buffer — undefined behavior, recorded as the `undefined` outcome
  (no theorem relies on the state in that regime).
-/

namespace mp

/-- The ways an operation of the header can fail to return normally.
`length_error` and `out_of_range` are exceptions that reach the caller
(`std::length_error` from the `size(size_type)` setter, `std::out_of_range`
from `at` / `std::basic_string_view::substr`).  `terminated` is guaranteed
program termination — the debug-build `assert` abort, or `std::terminate`
when the setter's throw hits a `noexcept` boundary (`assign(const_pointer,
size_type)` and the raw-pointer/count constructor): no error is catchable and
control never returns.  `undefined` marks the one undefined-behavior regime,
`append`'s out-of-bounds `Traits::copy` after the `size_t` sum wrapped: the
source has no defined state there and no theorem relies on it. -/
inductive cpp_error where
  | length_error : cpp_error
  | out_of_range : cpp_error
  | terminated : cpp_error
  | undefined : cpp_error
deriving DecidableEq, Repr

/-- `2 ^ 64`, the modulus of `std::size_t` arithmetic. -/
def SIZE_MOD : Nat := 18446744073709551616

/-- `2 ^ 8`, the modulus of `impl_size_type` (`std::uint8_t` for a one-byte
character type, per `detail::impl_size_type_helper`). -/
def IMPL_MOD : Nat := 256

/-- `static_cast<impl_size_type>` applied to a code-unit value. -/
def implCast (n : Nat) : Nat := n % IMPL_MOD

/-- `basic_inplace_string::npos = static_cast<size_type>(-1)`. -/
def npos : Nat := SIZE_MOD - 1

/-! Small `List.getD`/`List.set` helper lemmas used throughout. -/

theorem getD_set_self (l : List Nat) {i : Nat} (a : Nat) (h : i < l.length) :
    (l.set i a).getD i 0 = a := by
  simp [List.getD, List.getElem?_set_self, h]

theorem getD_set_ne (l : List Nat) {i j : Nat} (a : Nat) (h : i ≠ j) :
    (l.set i a).getD j 0 = l.getD j 0 := by
  simp [List.getD, List.getElem?_set_ne h]

theorem getD_take (l : List Nat) {n i : Nat} (h : i < n) :
    (l.take n).getD i 0 = l.getD i 0 := by
  simp [List.getD, List.getElem?_take, h]

theorem getD_of_len_le (l : List Nat) {i : Nat} (h : l.length ≤ i) :
    l.getD i 0 = 0 := by
  simp [List.getD, List.getElem?_eq_none h]

theorem ext_getD (l1 l2 : List Nat) (h : l1.length = l2.length)
    (hg : ∀ i, l1.getD i 0 = l2.getD i 0) : l1 = l2 := by
  apply List.ext_getElem h
  intro i h1 h2
  have hi := hg i
  simpa [List.getD, List.getElem?_eq_getElem, h1, h2] using hi

namespace Traits

/-- `Traits::copy(dst + pos, src, n)`: writes `src[0..n)` into
`dst[pos..pos+n)`, one element at a time. -/
def copy (dst : List Nat) (pos : Nat) (src : List Nat) : Nat → List Nat
  | 0 => dst
  | m + 1 => copy (dst.set (pos + m) (src.getD m 0)) pos src m

/-- `Traits::assign(dst + pos, n, c)`: writes `c` into `dst[pos..pos+n)`. -/
def fill (dst : List Nat) (pos : Nat) (c : Nat) : Nat → List Nat
  | 0 => dst
  | m + 1 => fill (dst.set (pos + m) c) pos c m

theorem length_copy (dst : List Nat) (pos : Nat) (src : List Nat) :
    ∀ n, (copy dst pos src n).length = dst.length := by
  intro n
  induction n generalizing dst with
  | zero => rfl
  | succ m ih => simpa [copy] using (ih (dst.set (pos + m) (src.getD m 0))).trans (by simp)

theorem length_fill (dst : List Nat) (pos c : Nat) :
    ∀ n, (fill dst pos c n).length = dst.length := by
  intro n
  induction n generalizing dst with
  | zero => rfl
  | succ m ih => simpa [fill] using (ih (dst.set (pos + m) c)).trans (by simp)

/-- What `copy` leaves at each index: the copied range `[pos, pos + n)` holds
the source values, everything else is untouched. -/
theorem getD_copy (dst : List Nat) (pos : Nat) (src : List Nat) (n : Nat)
    (hlen : pos + n ≤ dst.length) (i : Nat) :
    (copy dst pos src n).getD i 0 =
      if pos ≤ i ∧ i < pos + n then src.getD (i - pos) 0 else dst.getD i 0 := by
  induction n generalizing dst with
  | zero =>
    rw [if_neg (by omega)]
    rfl
  | succ m ih =>
    rw [copy, ih _ (by simp; omega)]
    rcases Nat.lt_trichotomy i (pos + m) with hlt | heq | hgt
    · by_cases hpi : pos ≤ i
      · rw [if_pos ⟨hpi, hlt⟩, if_pos ⟨hpi, by omega⟩]
      · rw [if_neg (by omega), if_neg (by omega), mp.getD_set_ne _ _ (by omega)]
    · subst heq
      rw [if_neg (by omega), if_pos ⟨by omega, by omega⟩,
        mp.getD_set_self _ _ (by omega), Nat.add_sub_cancel_left]
    · rw [if_neg (by omega), if_neg (by omega), mp.getD_set_ne _ _ (by omega)]

/-- What `fill` leaves at each index. -/
theorem getD_fill (dst : List Nat) (pos c : Nat) (n : Nat)
    (hlen : pos + n ≤ dst.length) (i : Nat) :
    (fill dst pos c n).getD i 0 =
      if pos ≤ i ∧ i < pos + n then c else dst.getD i 0 := by
  induction n generalizing dst with
  | zero =>
    rw [if_neg (by omega)]
    rfl
  | succ m ih =>
    rw [fill, ih _ (by simp; omega)]
    rcases Nat.lt_trichotomy i (pos + m) with hlt | heq | hgt
    · by_cases hpi : pos ≤ i
      · rw [if_pos ⟨hpi, hlt⟩, if_pos ⟨hpi, by omega⟩]
      · rw [if_neg (by omega), if_neg (by omega), mp.getD_set_ne _ _ (by omega)]
    · subst heq
      rw [if_neg (by omega), if_pos ⟨by omega, by omega⟩,
        mp.getD_set_self _ _ (by omega)]
    · rw [if_neg (by omega), if_neg (by omega), mp.getD_set_ne _ _ (by omega)]

end Traits

/-- The class `mp::basic_inplace_string<CharT, MaxSize>` at `sizeof(CharT) = 1`:
a buffer `chars_` of `MaxSize + 1` code units.  `max_size_ok` is the class's
`static_assert(MaxSize <= std::numeric_limits<impl_size_type>::max())`. -/
structure basic_inplace_string (MaxSize : Nat) where
  chars_ : List Nat
  length_chars : chars_.length = MaxSize + 1
  max_size_ok : MaxSize ≤ 255

namespace basic_inplace_string

variable {MaxSize : Nat}

/-- `max_size()` (also `capacity` in the spec's vocabulary). -/
def max_size (_ : basic_inplace_string MaxSize) : Nat := MaxSize

/-- `chars_.back()`: the element at index `MaxSize`. -/
def back_slot (st : basic_inplace_string MaxSize) : Nat := st.chars_.getD MaxSize 0

/-- `size() = max_size() - static_cast<impl_size_type>(chars_.back())`,
computed in `std::size_t` arithmetic. -/
def size (st : basic_inplace_string MaxSize) : Nat :=
  (MaxSize + (SIZE_MOD - implCast st.back_slot)) % SIZE_MOD

/-- `length()`. -/
def length (st : basic_inplace_string MaxSize) : Nat := st.size

/-- `empty()`. -/
def empty (st : basic_inplace_string MaxSize) : Bool := st.size == 0

/-- The `size(size_type)` setter: throws `std::length_error` when
`s > max_size()` (before touching the buffer), otherwise writes the null
terminator at index `s` and the encoded size `max_size() - s` into the
trailing slot. -/
def set_size (st : basic_inplace_string MaxSize) (s : Nat) :
    basic_inplace_string MaxSize × Option cpp_error :=
  if s > MaxSize then (st, some .length_error)
  else
    (⟨(st.chars_.set s 0).set MaxSize (MaxSize - s),
      by simp [st.length_chars], st.max_size_ok⟩, none)

/-- `clear() { size(0); }` (`clear` never throws: `0 ≤ max_size()`). -/
def clear (st : basic_inplace_string MaxSize) :
    basic_inplace_string MaxSize × Option cpp_error :=
  st.set_size 0

/-- `resize(n, c)`: remembers `sz = size()`, calls the checked setter
`size(n)`, and only when that returned normally and `n > sz` fills the newly
exposed slots `[sz, n)` with `c`. -/
def resize (st : basic_inplace_string MaxSize) (n c : Nat) :
    basic_inplace_string MaxSize × Option cpp_error :=
  match st.set_size n with
  | (st', some e) => (st', some e)
  | (st', none) =>
    if n > st.size then
      (⟨Traits.fill st'.chars_ st.size c (n - st.size),
        (Traits.length_fill _ _ _ _).trans st'.length_chars, st.max_size_ok⟩, none)
    else (st', none)

/-- `resize(n) { resize(n, value_type{}); }` — the fill character is the
value-initialized code unit `0`. -/
def resize1 (st : basic_inplace_string MaxSize) (n : Nat) :
    basic_inplace_string MaxSize × Option cpp_error :=
  st.resize n 0

/-- `assign(const_pointer s, size_type count)` — declared `noexcept`:
`assert(count <= MaxSize)`, then `size(count)`, then
`Traits::copy(data(), s, count)`.  An over-capacity `count` never reports a
recoverable error: a debug build aborts on the assertion, and in an `NDEBUG`
build the `length_error` thrown by the setter cannot escape the `noexcept`
function, so `std::terminate` runs — the `terminated` outcome, in every build
mode before anything is written (the receiver is returned untouched only to
type the pair; control never actually returns). -/
def assign (st : basic_inplace_string MaxSize) (src : List Nat) (count : Nat) :
    basic_inplace_string MaxSize × Option cpp_error :=
  match st.set_size count with
  | (st', some _) => (st', some .terminated)
  | (st', none) =>
    (⟨Traits.copy st'.chars_ 0 src count,
      (Traits.length_copy _ _ _ _).trans st'.length_chars, st.max_size_ok⟩, none)

/-- `assign(size_type count, CharT ch)`: asserts (no-ops under `NDEBUG`),
then the checked `size(count)`, then `Traits::assign(data(), count, ch)`. -/
def assign_fill (st : basic_inplace_string MaxSize) (count ch : Nat) :
    basic_inplace_string MaxSize × Option cpp_error :=
  match st.set_size count with
  | (st', some e) => (st', some e)
  | (st', none) =>
    (⟨Traits.fill st'.chars_ 0 ch count,
      (Traits.length_fill _ _ _ _).trans st'.length_chars, st.max_size_ok⟩, none)

/-- `append(const_pointer s, size_type n)` — not `noexcept`: remembers
`sz = size()`, calls the checked `size(sz + n)` — the sum is computed in
`size_t`, hence the `% 2^64` — and its `length_error` escapes to the caller;
then `Traits::copy(data() + sz, s, n)`.  When `sz + n` wrapped and the wrapped
value still passed the check, the copy of `n` characters runs beyond the
buffer: undefined behavior in the source, the `undefined` outcome here. -/
def append (st : basic_inplace_string MaxSize) (src : List Nat) (n : Nat) :
    basic_inplace_string MaxSize × Option cpp_error :=
  match st.set_size ((st.size + n) % SIZE_MOD) with
  | (st', some e) => (st', some e)
  | (st', none) =>
    if st.size + n < SIZE_MOD then
      (⟨Traits.copy st'.chars_ st.size src n,
        (Traits.length_copy _ _ _ _).trans st'.length_chars, st.max_size_ok⟩, none)
    else (st', some .undefined)

/-- `append(size_type n, value_type c) { resize(size() + n, c); }` — the sum
is computed in `size_t` and wraps; the resize itself is defined behavior at
the wrapped value (its fill never leaves the buffer). -/
def append_fill (st : basic_inplace_string MaxSize) (n c : Nat) :
    basic_inplace_string MaxSize × Option cpp_error :=
  st.resize ((st.size + n) % SIZE_MOD) c

/-- `push_back(value_type c) { append(static_cast<size_type>(1), c); }`. -/
def push_back (st : basic_inplace_string MaxSize) (c : Nat) :
    basic_inplace_string MaxSize × Option cpp_error :=
  st.append_fill 1 c

/-- `operator[](pos)`: unchecked `*(begin() + pos)`. -/
def index (st : basic_inplace_string MaxSize) (pos : Nat) : Nat :=
  st.chars_.getD pos 0

/-- `at(pos)`: throws `std::out_of_range` when `pos >= size()`, otherwise
returns (a reference to) `(*this)[pos]`.  It never writes to the buffer, so no
state is returned. -/
def at_pos (st : basic_inplace_string MaxSize) (pos : Nat) : Except cpp_error Nat :=
  if pos ≥ st.size then .error .out_of_range
  else .ok (st.index pos)

/-- `swap(other)`: `std::swap(chars_, other.chars_)` — the two whole buffers
are exchanged. -/
def swap (a b : basic_inplace_string MaxSize) :
    basic_inplace_string MaxSize × basic_inplace_string MaxSize :=
  (⟨b.chars_, b.length_chars, b.max_size_ok⟩, ⟨a.chars_, a.length_chars, a.max_size_ok⟩)

/-- The implicit conversion `operator basic_string_view() { return {data(),
size()}; }`: the first `size()` code units of the buffer. -/
def to_sv (st : basic_inplace_string MaxSize) : List Nat :=
  st.chars_.take st.size

/-! Characterization lemmas for the primitive operations. -/

theorem size_of_back (st : basic_inplace_string MaxSize) (h : st.back_slot ≤ MaxSize) :
    st.size = MaxSize - st.back_slot := by
  have hm := st.max_size_ok
  unfold size implCast IMPL_MOD SIZE_MOD
  omega

theorem set_size_err (st : basic_inplace_string MaxSize) {s : Nat} (h : MaxSize < s) :
    st.set_size s = (st, some .length_error) := by
  unfold set_size
  rw [if_pos (by omega)]

theorem set_size_chars (st : basic_inplace_string MaxSize) {s : Nat} (h : s ≤ MaxSize) :
    (st.set_size s).1.chars_ = (st.chars_.set s 0).set MaxSize (MaxSize - s) := by
  unfold set_size
  rw [if_neg (by omega)]

theorem set_size_snd (st : basic_inplace_string MaxSize) {s : Nat} (h : s ≤ MaxSize) :
    (st.set_size s).2 = none := by
  unfold set_size
  rw [if_neg (by omega)]

theorem getD_set_size (st : basic_inplace_string MaxSize) {s : Nat} (h : s ≤ MaxSize)
    (i : Nat) :
    (st.set_size s).1.chars_.getD i 0 =
      if i = MaxSize then MaxSize - s else if i = s then 0 else st.chars_.getD i 0 := by
  rw [set_size_chars st h]
  by_cases hc : i = MaxSize
  · subst hc
    rw [if_pos rfl, getD_set_self _ _ (by simp [st.length_chars])]
  · rw [if_neg hc, getD_set_ne _ _ (fun he => hc he.symm)]
    by_cases hs : i = s
    · subst hs
      rw [if_pos rfl, getD_set_self _ _ (by simp [st.length_chars]; omega)]
    · rw [if_neg hs, getD_set_ne _ _ (fun he => hs he.symm)]

theorem back_set_size (st : basic_inplace_string MaxSize) {s : Nat} (h : s ≤ MaxSize) :
    (st.set_size s).1.back_slot = MaxSize - s := by
  unfold back_slot
  rw [getD_set_size st h, if_pos rfl]

theorem size_set_size (st : basic_inplace_string MaxSize) {s : Nat} (h : s ≤ MaxSize) :
    (st.set_size s).1.size = s := by
  rw [size_of_back _ (by rw [back_set_size st h]; omega), back_set_size st h]
  omega

theorem assign_ok (st : basic_inplace_string MaxSize) (src : List Nat) {count : Nat}
    (h : count ≤ MaxSize) :
    (st.assign src count).1.chars_ = Traits.copy (st.set_size count).1.chars_ 0 src count
      ∧ (st.assign src count).2 = none := by
  unfold assign
  rcases hp : st.set_size count with ⟨st', e⟩
  have he : e = none := by
    have hs := set_size_snd st h
    rw [hp] at hs
    exact hs
  subst he
  exact ⟨rfl, rfl⟩

theorem getD_assign (st : basic_inplace_string MaxSize) (src : List Nat) {count : Nat}
    (h : count ≤ MaxSize) (i : Nat) :
    (st.assign src count).1.chars_.getD i 0 =
      if i < count then src.getD i 0
      else if i = MaxSize then MaxSize - count
      else if i = count then 0
      else st.chars_.getD i 0 := by
  rw [(assign_ok st src h).1,
    Traits.getD_copy _ _ _ _ (by simp [(st.set_size count).1.length_chars]; omega) i,
    getD_set_size st h]
  by_cases hc : i < count
  · rw [if_pos ⟨Nat.zero_le i, by omega⟩, if_pos hc, Nat.sub_zero]
  · rw [if_neg (by omega), if_neg hc]

theorem back_assign (st : basic_inplace_string MaxSize) (src : List Nat) {count : Nat}
    (h : count ≤ MaxSize) :
    (st.assign src count).1.back_slot = MaxSize - count := by
  unfold back_slot
  rw [getD_assign st src h]
  by_cases hc : MaxSize < count
  · omega
  · rw [if_neg (by omega), if_pos rfl]

theorem size_assign (st : basic_inplace_string MaxSize) (src : List Nat) {count : Nat}
    (h : count ≤ MaxSize) :
    (st.assign src count).1.size = count := by
  rw [size_of_back _ (by rw [back_assign st src h]; omega), back_assign st src h]
  omega

theorem assign_fill_ok (st : basic_inplace_string MaxSize) {count ch : Nat}
    (h : count ≤ MaxSize) :
    (st.assign_fill count ch).1.chars_ = Traits.fill (st.set_size count).1.chars_ 0 ch count
      ∧ (st.assign_fill count ch).2 = none := by
  unfold assign_fill
  rcases hp : st.set_size count with ⟨st', e⟩
  have he : e = none := by
    have hs := set_size_snd st h
    rw [hp] at hs
    exact hs
  subst he
  exact ⟨rfl, rfl⟩

theorem getD_assign_fill (st : basic_inplace_string MaxSize) {count ch : Nat}
    (h : count ≤ MaxSize) (i : Nat) :
    (st.assign_fill count ch).1.chars_.getD i 0 =
      if i < count then ch
      else if i = MaxSize then MaxSize - count
      else if i = count then 0
      else st.chars_.getD i 0 := by
  rw [(assign_fill_ok st h).1,
    Traits.getD_fill _ _ _ _ (by simp [(st.set_size count).1.length_chars]; omega) i,
    getD_set_size st h]
  by_cases hc : i < count
  · rw [if_pos ⟨Nat.zero_le i, by omega⟩, if_pos hc]
  · rw [if_neg (by omega), if_neg hc]

theorem size_assign_fill (st : basic_inplace_string MaxSize) {count ch : Nat}
    (h : count ≤ MaxSize) :
    (st.assign_fill count ch).1.size = count := by
  have hb : (st.assign_fill count ch).1.back_slot = MaxSize - count := by
    unfold back_slot
    rw [getD_assign_fill st h]
    by_cases hc : MaxSize < count
    · omega
    · rw [if_neg (by omega), if_pos rfl]
  rw [size_of_back _ (by rw [hb]; omega), hb]
  omega

theorem append_ok (st : basic_inplace_string MaxSize) (src : List Nat) {n : Nat}
    (h : st.size + n ≤ MaxSize) :
    (st.append src n).1.chars_ =
        Traits.copy (st.set_size (st.size + n)).1.chars_ st.size src n
      ∧ (st.append src n).2 = none := by
  have hw : st.size + n < SIZE_MOD := by
    have hm := st.max_size_ok
    unfold SIZE_MOD
    omega
  unfold append
  rw [Nat.mod_eq_of_lt hw]
  split
  next st' e heq =>
    have hs := set_size_snd st h
    rw [heq] at hs
    exact absurd hs (by simp)
  next st' heq =>
    rw [if_pos hw, heq]
    constructor <;> trivial

theorem getD_append (st : basic_inplace_string MaxSize) (src : List Nat) {n : Nat}
    (h : st.size + n ≤ MaxSize) (i : Nat) :
    (st.append src n).1.chars_.getD i 0 =
      if st.size ≤ i ∧ i < st.size + n then src.getD (i - st.size) 0
      else if i = MaxSize then MaxSize - (st.size + n)
      else if i = st.size + n then 0
      else st.chars_.getD i 0 := by
  rw [(append_ok st src h).1,
    Traits.getD_copy _ _ _ _
      (by simp [(st.set_size (st.size + n)).1.length_chars]; omega) i,
    getD_set_size st h]

theorem size_append (st : basic_inplace_string MaxSize) (src : List Nat) {n : Nat}
    (h : st.size + n ≤ MaxSize) :
    (st.append src n).1.size = st.size + n := by
  have hb : (st.append src n).1.back_slot = MaxSize - (st.size + n) := by
    unfold back_slot
    rw [getD_append st src h, if_neg (by omega), if_pos rfl]
  rw [size_of_back _ (by rw [hb]; omega), hb]
  omega

theorem append_err (st : basic_inplace_string MaxSize) (src : List Nat) {n : Nat}
    (h : MaxSize < st.size + n) (hw : st.size + n < SIZE_MOD) :
    st.append src n = (st, some .length_error) := by
  unfold append
  rw [Nat.mod_eq_of_lt hw, set_size_err st h]

theorem append_wrap_undefined (st : basic_inplace_string MaxSize) (src : List Nat)
    {n : Nat} (hw : SIZE_MOD ≤ st.size + n)
    (hpass : (st.size + n) % SIZE_MOD ≤ MaxSize) :
    (st.append src n).2 = some .undefined := by
  unfold append
  split
  next st' e heq =>
    have hs := set_size_snd st hpass
    rw [heq] at hs
    exact absurd hs (by simp)
  next st' heq =>
    rw [if_neg (by omega)]

theorem assign_err (st : basic_inplace_string MaxSize) (src : List Nat) {count : Nat}
    (h : MaxSize < count) :
    st.assign src count = (st, some .terminated) := by
  unfold assign
  rw [set_size_err st h]

theorem resize_err (st : basic_inplace_string MaxSize) {n c : Nat}
    (h : MaxSize < n) :
    st.resize n c = (st, some .length_error) := by
  unfold resize
  rw [set_size_err st h]

theorem resize_ok (st : basic_inplace_string MaxSize) {n c : Nat} (h : n ≤ MaxSize) :
    (st.resize n c).1.chars_ =
        (if st.size < n then
          Traits.fill (st.set_size n).1.chars_ st.size c (n - st.size)
         else (st.set_size n).1.chars_)
      ∧ (st.resize n c).2 = none := by
  unfold resize
  split
  next st' e heq =>
    have hs := set_size_snd st h
    rw [heq] at hs
    exact absurd hs (by simp)
  next st' heq =>
    by_cases hlt : st.size < n
    · simp only [heq, gt_iff_lt, if_pos hlt]
      constructor <;> trivial
    · simp only [heq, gt_iff_lt, if_neg hlt]
      constructor <;> trivial

theorem getD_resize (st : basic_inplace_string MaxSize) {n c : Nat} (h : n ≤ MaxSize)
    (i : Nat) :
    (st.resize n c).1.chars_.getD i 0 =
      if st.size ≤ i ∧ i < n then c
      else if i = MaxSize then MaxSize - n
      else if i = n then 0
      else st.chars_.getD i 0 := by
  rw [(resize_ok st h).1]
  by_cases hlt : st.size < n
  · rw [if_pos hlt,
      Traits.getD_fill _ _ _ _ (by simp [(st.set_size n).1.length_chars]; omega) i,
      getD_set_size st h]
    have hn : st.size + (n - st.size) = n := by omega
    rw [hn]
  · rw [if_neg hlt, getD_set_size st h]
    split_ifs <;> first | rfl | omega

theorem size_resize (st : basic_inplace_string MaxSize) {n c : Nat} (h : n ≤ MaxSize) :
    (st.resize n c).1.size = n := by
  have hb : (st.resize n c).1.back_slot = MaxSize - n := by
    unfold back_slot
    rw [getD_resize st h, if_neg (by omega), if_pos rfl]
  rw [size_of_back _ (by rw [hb]; omega), hb]
  omega

/-- The spec's §3 invariant: `0 ≤ length ≤ Capacity` (the lower bound is
implicit in `Nat`), the slot at index `length` holds the zero character, and
the trailing slot holds the encoded value `Capacity − length`. -/
def Inv (st : basic_inplace_string MaxSize) : Prop :=
  st.size ≤ MaxSize ∧ st.chars_.getD st.size 0 = 0
    ∧ st.back_slot = MaxSize - st.size

instance (st : basic_inplace_string MaxSize) : Decidable st.Inv := by
  unfold Inv
  exact inferInstance

theorem Inv_set_size (st : basic_inplace_string MaxSize) {s : Nat} (h : s ≤ MaxSize) :
    ((st.set_size s).1).Inv := by
  refine ⟨by rw [size_set_size st h]; exact h, ?_, ?_⟩
  · rw [size_set_size st h, getD_set_size st h]
    by_cases hc : s = MaxSize
    · rw [if_pos hc]
      omega
    · rw [if_neg hc, if_pos rfl]
  · rw [size_set_size st h, back_set_size st h]

theorem Inv_resize (st : basic_inplace_string MaxSize) {n c : Nat} (h : n ≤ MaxSize) :
    ((st.resize n c).1).Inv := by
  refine ⟨by rw [size_resize st h]; exact h, ?_, ?_⟩
  · rw [size_resize st h, getD_resize st h, if_neg (by omega)]
    by_cases hc : n = MaxSize
    · rw [if_pos hc]
      omega
    · rw [if_neg hc, if_pos rfl]
  · unfold back_slot
    rw [size_resize st h, getD_resize st h, if_neg (by omega), if_pos rfl]

theorem Inv_assign (st : basic_inplace_string MaxSize) (src : List Nat) {count : Nat}
    (h : count ≤ MaxSize) : ((st.assign src count).1).Inv := by
  refine ⟨by rw [size_assign st src h]; exact h, ?_, ?_⟩
  · rw [size_assign st src h, getD_assign st src h, if_neg (by omega)]
    by_cases hc : count = MaxSize
    · rw [if_pos hc]
      omega
    · rw [if_neg hc, if_pos rfl]
  · unfold back_slot
    rw [size_assign st src h, getD_assign st src h, if_neg (by omega), if_pos rfl]

theorem Inv_assign_fill (st : basic_inplace_string MaxSize) {count ch : Nat}
    (h : count ≤ MaxSize) : ((st.assign_fill count ch).1).Inv := by
  refine ⟨by rw [size_assign_fill st h]; exact h, ?_, ?_⟩
  · rw [size_assign_fill st h, getD_assign_fill st h, if_neg (by omega)]
    by_cases hc : count = MaxSize
    · rw [if_pos hc]
      omega
    · rw [if_neg hc, if_pos rfl]
  · unfold back_slot
    rw [size_assign_fill st h, getD_assign_fill st h, if_neg (by omega), if_pos rfl]

theorem Inv_append (st : basic_inplace_string MaxSize) (src : List Nat) {n : Nat}
    (h : st.size + n ≤ MaxSize) : ((st.append src n).1).Inv := by
  refine ⟨by rw [size_append st src h]; exact h, ?_, ?_⟩
  · rw [size_append st src h, getD_append st src h, if_neg (by omega)]
    by_cases hc : st.size + n = MaxSize
    · rw [if_pos hc]
      omega
    · rw [if_neg hc, if_pos rfl]
  · unfold back_slot
    rw [size_append st src h, getD_append st src h, if_neg (by omega), if_pos rfl]

theorem resize_bound (st : basic_inplace_string MaxSize) {n c : Nat}
    (h : (st.resize n c).2 = none) : n ≤ MaxSize := by
  by_contra hgt
  rw [resize_err st (by omega)] at h
  exact Option.noConfusion h

theorem assign_bound (st : basic_inplace_string MaxSize) {src : List Nat} {count : Nat}
    (h : (st.assign src count).2 = none) : count ≤ MaxSize := by
  by_contra hgt
  rw [assign_err st src (by omega)] at h
  exact Option.noConfusion h

theorem append_bound (st : basic_inplace_string MaxSize) {src : List Nat} {n : Nat}
    (h : (st.append src n).2 = none) : st.size + n ≤ MaxSize := by
  by_contra hgt
  unfold append at h
  split at h
  next st' e heq => simp at h
  next st' heq =>
    by_cases hw : st.size + n < SIZE_MOD
    · rw [Nat.mod_eq_of_lt hw, set_size_err st (by omega)] at heq
      have hsnd := congrArg Prod.snd heq
      simp at hsnd
    · rw [if_neg hw] at h
      simp at h

theorem assign_fill_bound (st : basic_inplace_string MaxSize) {count ch : Nat}
    (h : (st.assign_fill count ch).2 = none) : count ≤ MaxSize := by
  by_contra hgt
  have he : st.set_size count = (st, some .length_error) := set_size_err st (by omega)
  unfold assign_fill at h
  rw [he] at h
  exact Option.noConfusion h

end basic_inplace_string

/-- `to_string(v) { return {v.data(), v.size()}; }` — the owning string holding
the first `v.size()` code units. -/
def to_string {MaxSize : Nat} (v : basic_inplace_string MaxSize) : List Nat :=
  v.chars_.take v.size

/-- `std::equal(first1, last1, first2, last2)`: true iff the two ranges have
equal length and are element-wise equal. -/
def std_equal : List Nat → List Nat → Bool
  | [], [] => true
  | a :: as, b :: bs => a == b && std_equal as bs
  | _, _ => false

/-- `std::lexicographical_compare(first1, last1, first2, last2)` over code
units. -/
def lex_compare : List Nat → List Nat → Bool
  | _, [] => false
  | [], _ :: _ => true
  | a :: as, b :: bs =>
    if a < b then true else if b < a then false else lex_compare as bs

/-- `operator==` on two instances of equal `MaxSize`: `std::equal` over
`[begin, end) = [data, data + size)` of each side. -/
def bis_eq {MaxSize : Nat} (lhs rhs : basic_inplace_string MaxSize) : Bool :=
  std_equal lhs.to_sv rhs.to_sv

/-- `operator!= { return !(lhs == rhs); }`. -/
def bis_ne {MaxSize : Nat} (lhs rhs : basic_inplace_string MaxSize) : Bool :=
  !(bis_eq lhs rhs)

/-- `operator<`: `std::lexicographical_compare` over the two ranges. -/
def bis_lt {MaxSize : Nat} (lhs rhs : basic_inplace_string MaxSize) : Bool :=
  lex_compare lhs.to_sv rhs.to_sv

/-- `operator<= { return !(rhs < lhs); }`. -/
def bis_le {MaxSize : Nat} (lhs rhs : basic_inplace_string MaxSize) : Bool :=
  !(bis_lt rhs lhs)

/-- `operator> { return rhs < lhs; }`. -/
def bis_gt {MaxSize : Nat} (lhs rhs : basic_inplace_string MaxSize) : Bool :=
  bis_lt rhs lhs

/-- `operator>= { return !(lhs < rhs); }`. -/
def bis_ge {MaxSize : Nat} (lhs rhs : basic_inplace_string MaxSize) : Bool :=
  !(bis_lt lhs rhs)

/-- `std::basic_string_view::substr(pos, n)`: throws `std::out_of_range` when
`pos > size()`, otherwise the view of `min(n, size() - pos)` code units
starting at `pos`. -/
def sv_substr (sv : List Nat) (pos n : Nat) : Except cpp_error (List Nat) :=
  if pos > sv.length then .error .out_of_range
  else .ok ((sv.drop pos).take n)

/-- The `basic_inplace_string(const_pointer s, size_type count)` constructor
— itself `noexcept`, delegating to the `noexcept` `assign(s, count)` — run on
a fresh object whose buffer contents `junk` are indeterminate (the array
member is not initialized before `assign` runs).  `.error .terminated` means
an over-capacity `count` terminated the program (debug assert abort or
`std::terminate`): no object is ever constructed and no error is catchable. -/
def construct_ptr_count (MaxSize : Nat) (junk : List Nat)
    (hj : junk.length = MaxSize + 1) (hm : MaxSize ≤ 255)
    (src : List Nat) (count : Nat) : Except cpp_error (basic_inplace_string MaxSize) :=
  match basic_inplace_string.assign ⟨junk, hj, hm⟩ src count with
  | (st, none) => .ok st
  | (_, some e) => .error e

/-- The substring constructors `basic_inplace_string(str, pos, n)` /
`basic_inplace_string(t, pos, n)`: both delegate to
`basic_inplace_string{string_view{...}.substr(pos, n)}`, which in turn is
`basic_inplace_string{sv.data(), sv.size()}`, i.e. `assign` of the resulting
view.  `sv` is the source's view contents (for another `basic_inplace_string`
this is its `to_sv`). -/
def construct_substr (MaxSize : Nat) (junk : List Nat)
    (hj : junk.length = MaxSize + 1) (hm : MaxSize ≤ 255)
    (sv : List Nat) (pos n : Nat) : Except cpp_error (basic_inplace_string MaxSize) :=
  match sv_substr sv pos n with
  | .error e => .error e
  | .ok sub => construct_ptr_count MaxSize junk hj hm sub sub.length

/-- The `basic_inplace_string(str, pos)` constructor: delegates to
`substr(pos)`, i.e. `substr(pos, npos)`. -/
def construct_substr_pos (MaxSize : Nat) (junk : List Nat)
    (hj : junk.length = MaxSize + 1) (hm : MaxSize ≤ 255)
    (sv : List Nat) (pos : Nat) : Except cpp_error (basic_inplace_string MaxSize) :=
  construct_substr MaxSize junk hj hm sv pos npos

/-- The default constructor `basic_inplace_string() { clear(); }`: `clear`
run on a fresh object with indeterminate buffer contents `junk`. -/
def construct_default (MaxSize : Nat) (junk : List Nat)
    (hj : junk.length = MaxSize + 1) (hm : MaxSize ≤ 255) :
    basic_inplace_string MaxSize :=
  (basic_inplace_string.clear ⟨junk, hj, hm⟩).1

theorem eq_of_chars {MaxSize : Nat} {a b : basic_inplace_string MaxSize}
    (h : a.chars_ = b.chars_) : a = b := by
  cases a
  cases b
  simp_all

instance {MaxSize : Nat} : DecidableEq (basic_inplace_string MaxSize) := fun a b =>
  if h : a.chars_ = b.chars_ then .isTrue (eq_of_chars h)
  else .isFalse fun he => h (congrArg basic_inplace_string.chars_ he)

/-! Facts about the comparison primitives. -/

theorem std_equal_iff (a : List Nat) : ∀ b, std_equal a b = true ↔ a = b := by
  induction a with
  | nil =>
    intro b
    cases b <;> simp [std_equal]
  | cons x xs ih =>
    intro b
    cases b with
    | nil => simp [std_equal]
    | cons y ys => simp [std_equal, ih]

/-- `std::lexicographical_compare` decides exactly the textbook lexicographic
strict order (`List.Lex` over `<` on code units). -/
theorem lex_compare_iff (a : List Nat) :
    ∀ b, lex_compare a b = true ↔ List.Lex (· < ·) a b := by
  induction a with
  | nil =>
    intro b
    cases b with
    | nil =>
      constructor
      · intro h
        exact absurd h (by rw [lex_compare]; simp)
      · intro h
        cases h
    | cons y ys =>
      constructor
      · intro _
        exact List.Lex.nil
      · intro _
        rfl
  | cons x xs ih =>
    intro b
    cases b with
    | nil =>
      constructor
      · intro h
        rw [lex_compare] at h
        cases h
      · intro h
        cases h
    | cons y ys =>
      rw [lex_compare]
      by_cases hxy : x < y
      · rw [if_pos hxy]
        constructor
        · intro _
          exact List.Lex.rel hxy
        · intro _
          rfl
      · rw [if_neg hxy]
        by_cases hyx : y < x
        · rw [if_pos hyx]
          constructor
          · intro h
            cases h
          · intro h
            cases h with
            | cons h' => omega
            | rel h' => exact absurd h' hxy
        · rw [if_neg hyx]
          have hxy' : x = y := by omega
          subst hxy'
          constructor
          · intro h
            exact List.Lex.cons ((ih ys).mp h)
          · intro h
            cases h with
            | cons h' => exact (ih ys).mpr h'
            | rel h' => omega

theorem not_lex_iff (a b : List Nat) :
    ¬ List.Lex (· < ·) b a ↔ (List.Lex (· < ·) a b ∨ a = b) := by
  constructor
  · intro h
    rcases lt_trichotomy a b with h1 | h1 | h1
    · exact Or.inl h1
    · exact Or.inr h1
    · exact absurd h1 h
  · rintro (h1 | rfl)
    · exact lt_asymm (α := List Nat) h1
    · exact lt_irrefl (α := List Nat) a

/-! Concrete fixtures used by the witness theorems (the junk cells are
deliberately nonzero to exercise junk-independence). -/

/-- A capacity-5 instance holding `"hello"` (built by `assign` over a buffer of
indeterminate, nonzero cells). -/
def hello5 : basic_inplace_string 5 :=
  (basic_inplace_string.assign ⟨[9, 9, 9, 9, 9, 9], by decide, by decide⟩
    [104, 101, 108, 108, 111] 5).1

/-- A capacity-6 instance holding `"foo"`. -/
def foo6 : basic_inplace_string 6 :=
  (basic_inplace_string.assign ⟨[7, 7, 7, 7, 7, 7, 7], by decide, by decide⟩
    [102, 111, 111] 3).1

/-- A capacity-6 instance holding `"foobar"`. -/
def foobar6 : basic_inplace_string 6 :=
  (basic_inplace_string.assign ⟨[0, 0, 0, 0, 0, 0, 0], by decide, by decide⟩
    [102, 111, 111, 98, 97, 114] 6).1

/-- `assign` of a whole view reproduces that view exactly. -/
theorem to_sv_assign_self {MaxSize : Nat} (st : basic_inplace_string MaxSize)
    (s : List Nat) (h : s.length ≤ MaxSize) :
    (st.assign s s.length).1.to_sv = s := by
  unfold basic_inplace_string.to_sv
  apply ext_getD
  · rw [basic_inplace_string.size_assign st s h]
    simp [(st.assign s s.length).1.length_chars]
    omega
  · intro i
    rw [basic_inplace_string.size_assign st s h]
    by_cases hi : i < s.length
    · rw [getD_take _ hi, basic_inplace_string.getD_assign st s h, if_pos hi]
    · rw [getD_of_len_le _ (by simp [(st.assign s s.length).1.length_chars]; omega),
        getD_of_len_le _ (by omega)]

/-- Reduction of the raw-pointer/count constructor when the count fits. -/
theorem construct_ptr_count_eq (MaxSize : Nat) (junk : List Nat)
    (hj : junk.length = MaxSize + 1) (hm : MaxSize ≤ 255)
    (src : List Nat) {count : Nat} (h : count ≤ MaxSize) :
    construct_ptr_count MaxSize junk hj hm src count =
      .ok (basic_inplace_string.assign ⟨junk, hj, hm⟩ src count).1 := by
  unfold construct_ptr_count
  rcases hp : basic_inplace_string.assign ⟨junk, hj, hm⟩ src count with ⟨st, e⟩
  have he : e = none := by
    have hs := (basic_inplace_string.assign_ok ⟨junk, hj, hm⟩ src h).2
    rw [hp] at hs
    exact hs
  subst he
  rfl

/-! ## The claims -/

/-- C2: for every `n > Capacity`, `resize(n, c)` and `resize(n)` fail with the
length-exceeded error (`std::length_error` from the `size(size_type)` setter,
which throws before touching the buffer), and the instance is returned
completely unchanged. -/
theorem C2_resize_over_capacity_fails {MaxSize : Nat}
    (st : basic_inplace_string MaxSize) (n c : Nat) (h : MaxSize < n) :
    st.resize n c = (st, some cpp_error.length_error)
      ∧ st.resize1 n = (st, some cpp_error.length_error) :=
  ⟨basic_inplace_string.resize_err st h, basic_inplace_string.resize_err st h⟩

/-- Witness for C2 at a concrete input: capacity 5, `resize(9)`. -/
theorem C2_witness :
    hello5.resize 9 97 = (hello5, some cpp_error.length_error)
      ∧ hello5.resize1 9 = (hello5, some cpp_error.length_error) :=
  C2_resize_over_capacity_fails hello5 9 97 (by decide)

/-- C9: a default-constructed instance (for every indeterminate initial buffer
content) has `size() == 0`, `empty() == true`, its raw-pointer view is the
empty view, and `buffer[0]` is the zero character. -/
theorem C9_default_constructed (MaxSize : Nat) (junk : List Nat)
    (hj : junk.length = MaxSize + 1) (hm : MaxSize ≤ 255) :
    (construct_default MaxSize junk hj hm).size = 0
      ∧ (construct_default MaxSize junk hj hm).empty = true
      ∧ (construct_default MaxSize junk hj hm).chars_.getD 0 0 = 0
      ∧ (construct_default MaxSize junk hj hm).to_sv = [] := by
  have h0 : (0 : Nat) ≤ MaxSize := Nat.zero_le MaxSize
  have hsz : (construct_default MaxSize junk hj hm).size = 0 :=
    basic_inplace_string.size_set_size ⟨junk, hj, hm⟩ h0
  refine ⟨hsz, ?_, ?_, ?_⟩
  · unfold basic_inplace_string.empty
    rw [hsz]
    rfl
  · show ((basic_inplace_string.set_size ⟨junk, hj, hm⟩ 0).1).chars_.getD 0 0 = 0
    rw [basic_inplace_string.getD_set_size ⟨junk, hj, hm⟩ h0]
    by_cases hc : (0 : Nat) = MaxSize
    · rw [if_pos hc]
      omega
    · rw [if_neg hc, if_pos rfl]
  · unfold basic_inplace_string.to_sv
    rw [hsz]
    rfl

/-- Witness for C9 at a concrete input: capacity 3, junk cells `5`. -/
theorem C9_witness :
    (construct_default 3 [5, 5, 5, 5] (by decide) (by decide)).size = 0
      ∧ (construct_default 3 [5, 5, 5, 5] (by decide) (by decide)).empty = true
      ∧ (construct_default 3 [5, 5, 5, 5] (by decide) (by decide)).chars_.getD 0 0 = 0
      ∧ (construct_default 3 [5, 5, 5, 5] (by decide) (by decide)).to_sv = [] :=
  C9_default_constructed 3 [5, 5, 5, 5] (by decide) (by decide)

/-- C7: `at(pos)` fails with the out-of-range error exactly when
`pos ≥ size()` and otherwise returns the character at `pos`; `at(size())`
always fails and `at(size()-1)` on a non-empty instance always succeeds.
`at` performs no write at all (in the model it does not even return a state),
so a failing call leaves the instance unchanged. -/
theorem C7_at_checked {MaxSize : Nat} (st : basic_inplace_string MaxSize) (pos : Nat) :
    (pos < st.size → st.at_pos pos = .ok (st.index pos))
      ∧ (st.size ≤ pos → st.at_pos pos = .error cpp_error.out_of_range)
      ∧ st.at_pos st.size = .error cpp_error.out_of_range
      ∧ (st.size ≠ 0 → st.at_pos (st.size - 1) = .ok (st.index (st.size - 1))) := by
  refine ⟨?_, ?_, ?_, ?_⟩
  · intro h
    unfold basic_inplace_string.at_pos
    rw [if_neg (by omega)]
  · intro h
    unfold basic_inplace_string.at_pos
    rw [if_pos (by omega)]
  · unfold basic_inplace_string.at_pos
    rw [if_pos (by omega)]
  · intro h
    unfold basic_inplace_string.at_pos
    rw [if_neg (by omega)]

/-- Witness for C7 at concrete inputs on `hello5` (size 5): `at(4)` succeeds
with `'o'`, `at(5) = at(size())` fails. -/
theorem C7_witness :
    hello5.at_pos 4 = .ok 111 ∧ hello5.at_pos 5 = .error cpp_error.out_of_range := by
  have h4 := C7_at_checked hello5 4
  have h5 := C7_at_checked hello5 5
  exact ⟨(h4.1 (by decide)).trans (congrArg Except.ok (by decide)), h5.2.1 (by decide)⟩

/-- C10 as stated is false on the code: `assign(const_pointer, size_type)` is
`noexcept`, so its overflow never raises the recoverable length-exceeded
error in any build mode — a debug build aborts on `assert(count <= MaxSize)`
and an optimized build calls `std::terminate` when the setter's throw hits
the `noexcept` boundary.  Concretely at capacity 5, count 6: the outcome is
guaranteed termination, not the catchable `length_error` the claim
requires of all three paths. -/
theorem C10_counterexample :
    basic_inplace_string.assign hello5 [120, 120, 120, 120, 120, 120] 6
        = (hello5, some cpp_error.terminated)
      ∧ some cpp_error.terminated ≠ some cpp_error.length_error := by decide

/-- C10 amended: `append(s, n)` and `push_back(c)` (not `noexcept`, and with
the `size_t` sum not wrapping) raise `cpp_error.length_error` — the same
recoverable error `resize` raises, thrown by the `size(size_type)` setter
whose check is not compiled out — before any character is copied, leaving the
instance unchanged; `assign(s, count)` with `count > Capacity` instead never
reports a recoverable error: being `noexcept`, it terminates the program in
every build mode (debug assertion abort, `std::terminate` otherwise),
likewise before any write. -/
theorem C10_growth_error_reporting {MaxSize : Nat} (st : basic_inplace_string MaxSize)
    (src : List Nat) (n count c : Nat) :
    (MaxSize < st.size + n → st.size + n < SIZE_MOD →
        st.append src n = (st, some cpp_error.length_error))
      ∧ (MaxSize < st.size + 1 → st.size + 1 < SIZE_MOD →
        st.push_back c = (st, some cpp_error.length_error))
      ∧ (MaxSize < count → st.assign src count = (st, some cpp_error.terminated)) := by
  refine ⟨fun hgt hw => basic_inplace_string.append_err st src hgt hw,
    fun hgt hw => ?_, fun h => basic_inplace_string.assign_err st src h⟩
  show st.resize ((st.size + 1) % SIZE_MOD) c = _
  rw [Nat.mod_eq_of_lt hw]
  exact basic_inplace_string.resize_err st hgt

/-- Witness for the amended C10 at concrete inputs: `hello5` is full
(size 5 = capacity), so a one-character `append` and `push_back` report the
recoverable error and leave it unchanged, while a 7-character `assign`
terminates. -/
theorem C10_witness :
    hello5.append [120] 1 = (hello5, some cpp_error.length_error)
      ∧ hello5.push_back 120 = (hello5, some cpp_error.length_error)
      ∧ basic_inplace_string.assign hello5 [121] 7 = (hello5, some cpp_error.terminated) := by
  have h := C10_growth_error_reporting hello5 [120] 1 7 120
  have h2 := C10_growth_error_reporting hello5 [121] 1 7 120
  exact ⟨h.1 (by decide) (by decide), h.2.1 (by decide) (by decide), h2.2.2 (by decide)⟩

/-- C1: every public operation that returns normally re-establishes the §3
invariant — `length ≤ Capacity`, `buffer[length] = 0` and
`buffer[Capacity] = Capacity − length` (when `length = Capacity` the last two
name the same zero-valued cell).  Covered: the default constructor (for every
indeterminate initial buffer), `clear`, both `resize` overloads, `assign`
(pointer/count and count/fill), `append`, `push_back`, `swap`, and the
raw-pointer/count constructor. -/
theorem C1_invariant_after_each_operation {MaxSize : Nat} :
    (∀ (junk : List Nat) (hj : junk.length = MaxSize + 1) (hm : MaxSize ≤ 255),
        (construct_default MaxSize junk hj hm).Inv)
    ∧ (∀ st : basic_inplace_string MaxSize, ((basic_inplace_string.clear st).1).Inv)
    ∧ (∀ (st : basic_inplace_string MaxSize) (n c : Nat),
        (st.resize n c).2 = none → ((st.resize n c).1).Inv)
    ∧ (∀ (st : basic_inplace_string MaxSize) (n : Nat),
        (st.resize1 n).2 = none → ((st.resize1 n).1).Inv)
    ∧ (∀ (st : basic_inplace_string MaxSize) (src : List Nat) (count : Nat),
        (st.assign src count).2 = none → ((st.assign src count).1).Inv)
    ∧ (∀ (st : basic_inplace_string MaxSize) (count ch : Nat),
        (st.assign_fill count ch).2 = none → ((st.assign_fill count ch).1).Inv)
    ∧ (∀ (st : basic_inplace_string MaxSize) (src : List Nat) (n : Nat),
        (st.append src n).2 = none → ((st.append src n).1).Inv)
    ∧ (∀ (st : basic_inplace_string MaxSize) (c : Nat),
        (st.push_back c).2 = none → ((st.push_back c).1).Inv)
    ∧ (∀ a b : basic_inplace_string MaxSize, a.Inv → b.Inv →
        ((basic_inplace_string.swap a b).1.Inv ∧ (basic_inplace_string.swap a b).2.Inv))
    ∧ (∀ (junk : List Nat) (hj : junk.length = MaxSize + 1) (hm : MaxSize ≤ 255)
        (src : List Nat) (count : Nat) (st : basic_inplace_string MaxSize),
        construct_ptr_count MaxSize junk hj hm src count = .ok st → st.Inv) := by
  refine ⟨?_, ?_, ?_, ?_, ?_, ?_, ?_, ?_, ?_, ?_⟩
  · intro junk hj hm
    exact basic_inplace_string.Inv_set_size ⟨junk, hj, hm⟩ (Nat.zero_le MaxSize)
  · intro st
    exact basic_inplace_string.Inv_set_size st (Nat.zero_le MaxSize)
  · intro st n c h
    exact basic_inplace_string.Inv_resize st (basic_inplace_string.resize_bound st h)
  · intro st n h
    exact basic_inplace_string.Inv_resize st (basic_inplace_string.resize_bound st h)
  · intro st src count h
    exact basic_inplace_string.Inv_assign st src (basic_inplace_string.assign_bound st h)
  · intro st count ch h
    exact basic_inplace_string.Inv_assign_fill st (basic_inplace_string.assign_fill_bound st h)
  · intro st src n h
    exact basic_inplace_string.Inv_append st src (basic_inplace_string.append_bound st h)
  · intro st c h
    exact basic_inplace_string.Inv_resize st (basic_inplace_string.resize_bound st h)
  · intro a b ha hb
    exact ⟨hb, ha⟩
  · intro junk hj hm src count st h
    have hc : count ≤ MaxSize := by
      by_contra hgt
      unfold construct_ptr_count at h
      rw [basic_inplace_string.assign_err _ src (by omega)] at h
      exact Except.noConfusion h
    rw [construct_ptr_count_eq MaxSize junk hj hm src hc] at h
    have hinv := basic_inplace_string.Inv_assign ⟨junk, hj, hm⟩ src hc
    exact ((Except.ok.injEq _ _).mp h) ▸ hinv

/-- Witness for C1 at a concrete input: the invariant after `resize(2, '0')`
on `hello5` and after default construction over junk cells. -/
theorem C1_witness :
    ((basic_inplace_string.resize hello5 2 48).1).Inv
      ∧ (construct_default 5 [8, 8, 8, 8, 8, 8] (by decide) (by decide)).Inv := by
  have h := @C1_invariant_after_each_operation 5
  exact ⟨h.2.2.1 hello5 2 48 (by decide),
    h.1 [8, 8, 8, 8, 8, 8] (by decide) (by decide)⟩

/-- C4: for every sequence `s` with `|s| ≤ Capacity`, `assign(s)` (i.e.
`assign(s.data(), s.size())`) succeeds and converting the result to an owning
string (`to_string`) yields exactly `s`. -/
theorem C4_assign_to_string_round_trip {MaxSize : Nat}
    (st : basic_inplace_string MaxSize) (s : List Nat) (h : s.length ≤ MaxSize) :
    (st.assign s s.length).2 = none ∧ to_string (st.assign s s.length).1 = s :=
  ⟨(basic_inplace_string.assign_ok st s h).2, to_sv_assign_self st s h⟩

/-- Witness for C4 at a concrete input: `"hi"` into a capacity-5 instance. -/
theorem C4_witness :
    (basic_inplace_string.assign hello5 [104, 105] 2).2 = none
      ∧ to_string (basic_inplace_string.assign hello5 [104, 105] 2).1 = [104, 105] :=
  C4_assign_to_string_round_trip hello5 [104, 105] (by decide)

/-- C5: from length `L = size()`, `append` of `k` characters with
`L + k ≤ Capacity` succeeds, yields length `L + k`, writes the `k` characters
at offsets `L..L+k-1`, and leaves the first `L` characters untouched. -/
theorem C5_append_monotonic {MaxSize : Nat} (st : basic_inplace_string MaxSize)
    (src : List Nat) (k : Nat) (hk : src.length = k) (h : st.size + k ≤ MaxSize) :
    (st.append src k).2 = none
      ∧ (st.append src k).1.size = st.size + k
      ∧ (∀ i, i < st.size → (st.append src k).1.chars_.getD i 0 = st.chars_.getD i 0)
      ∧ (∀ i, i < k →
          (st.append src k).1.chars_.getD (st.size + i) 0 = src.getD i 0) := by
  refine ⟨(basic_inplace_string.append_ok st src h).2,
    basic_inplace_string.size_append st src h, ?_, ?_⟩
  · intro i hi
    rw [basic_inplace_string.getD_append st src h, if_neg (by omega),
      if_neg (by omega), if_neg (by omega)]
  · intro i hi
    rw [basic_inplace_string.getD_append st src h, if_pos ⟨by omega, by omega⟩,
      Nat.add_sub_cancel_left]

/-- Witness for C5 at a concrete input: appending `"bar"` to `foo6`. -/
theorem C5_witness :
    (foo6.append [98, 97, 114] 3).2 = none
      ∧ (foo6.append [98, 97, 114] 3).1.size = foo6.size + 3
      ∧ (∀ i, i < foo6.size →
          (foo6.append [98, 97, 114] 3).1.chars_.getD i 0 = foo6.chars_.getD i 0)
      ∧ (∀ i, i < 3 →
          (foo6.append [98, 97, 114] 3).1.chars_.getD (foo6.size + i) 0
            = [98, 97, 114].getD i 0) :=
  C5_append_monotonic foo6 [98, 97, 114] 3 (by decide) (by decide)

/-- C3 as stated is false on the code: over-capacity `append` is not an
unchecked path — `append(const_pointer, size_type)` is not `noexcept`, so the
`length_error` thrown by the `size(size_type)` setter reaches the caller as a
recoverable checked failure, before any character is copied.  Concretely, on
a full capacity-5 instance, appending one character reports the recoverable
`length_error` with the instance unchanged, where the claim asserts no
recoverable error is ever reported on these paths.  (For contrast, the
`noexcept` `assign` at count 6 terminates the program — guaranteed, in
optimized builds too — rather than going undefined.) -/
theorem C3_counterexample :
    hello5.append [119] 1 = (hello5, some cpp_error.length_error)
      ∧ basic_inplace_string.assign hello5 [99, 99, 99, 99, 99, 99] 6
          = (hello5, some cpp_error.terminated) := by decide

/-- C3 amended: the growth paths split three ways.  `assign(s, count)` and
the raw-pointer/count constructor are `noexcept`: an over-capacity `count`
indeed reports no recoverable error, but the outcome is guaranteed program
termination in every build mode (debug assertion abort; otherwise
`std::terminate` when the setter's throw hits the `noexcept` boundary) with
nothing written first — not undefined behavior.  `append(s, n)` is not
`noexcept`: when the `size_t` sum `size() + n` does not wrap, an
over-capacity result reports the recoverable length-exceeded error before
any copy, the instance unchanged; only when the sum wraps and the wrapped
value passes the capacity check does `append` go undefined (the oversized
out-of-bounds copy). -/
theorem C3_amended_growth_error_paths {MaxSize : Nat} (junk : List Nat)
    (hj : junk.length = MaxSize + 1) (hm : MaxSize ≤ 255)
    (st : basic_inplace_string MaxSize) (src : List Nat) (count n : Nat) :
    (MaxSize < count → st.assign src count = (st, some cpp_error.terminated))
      ∧ (MaxSize < count →
          construct_ptr_count MaxSize junk hj hm src count
            = .error cpp_error.terminated)
      ∧ (MaxSize < st.size + n → st.size + n < SIZE_MOD →
          st.append src n = (st, some cpp_error.length_error))
      ∧ (SIZE_MOD ≤ st.size + n → (st.size + n) % SIZE_MOD ≤ MaxSize →
          (st.append src n).2 = some cpp_error.undefined) := by
  refine ⟨fun h => basic_inplace_string.assign_err st src h, fun h => ?_,
    fun hgt hw => basic_inplace_string.append_err st src hgt hw,
    fun hw hpass => basic_inplace_string.append_wrap_undefined st src hw hpass⟩
  unfold construct_ptr_count
  rw [basic_inplace_string.assign_err _ src h]

/-- Witness for the amended C3 at concrete inputs (capacity 5): count-6
`assign` and construction terminate; a non-wrapping over-capacity `append`
reports the recoverable error; a wrapping `append` (n = 2^64) whose wrapped
sum passes the check is the undefined regime. -/
theorem C3_witness :
    basic_inplace_string.assign hello5 [121] 6 = (hello5, some cpp_error.terminated)
      ∧ construct_ptr_count 5 [3, 3, 3, 3, 3, 3] (by decide) (by decide) [121] 6
          = .error cpp_error.terminated
      ∧ hello5.append [121] 1 = (hello5, some cpp_error.length_error)
      ∧ (hello5.append [121] SIZE_MOD).2 = some cpp_error.undefined := by
  have h := C3_amended_growth_error_paths [3, 3, 3, 3, 3, 3] (by decide) (by decide)
    hello5 [121] 6 1
  have h2 := C3_amended_growth_error_paths [3, 3, 3, 3, 3, 3] (by decide) (by decide)
    hello5 [121] 6 SIZE_MOD
  exact ⟨h.1 (by decide), h.2.1 (by decide), h.2.2.1 (by decide) (by decide),
    h2.2.2.2 (by decide) (by decide)⟩

/-- C6: the six relational operators on equal-capacity instances compare
exactly the logical sequences `[0, size)` (the `to_sv` ranges, which exclude
the terminator and the size-encoding slot): `==` is sequence equality (hence
independent of vacated-slot junk), `<` is the textbook lexicographic strict
order on code units (a proper prefix is less), and the remaining four are the
derived comparisons.  Concretely, `"foo" < "foobar"` at capacity 6 (the two
fixtures carry different junk in their vacated slots). -/
theorem C6_relational_compare_sequences {MaxSize : Nat}
    (a b : basic_inplace_string MaxSize) :
    (bis_eq a b = true ↔ a.to_sv = b.to_sv)
      ∧ (bis_ne a b = true ↔ a.to_sv ≠ b.to_sv)
      ∧ (bis_lt a b = true ↔ List.Lex (· < ·) a.to_sv b.to_sv)
      ∧ (bis_le a b = true ↔ (List.Lex (· < ·) a.to_sv b.to_sv ∨ a.to_sv = b.to_sv))
      ∧ (bis_gt a b = true ↔ List.Lex (· < ·) b.to_sv a.to_sv)
      ∧ (bis_ge a b = true ↔ (List.Lex (· < ·) b.to_sv a.to_sv ∨ a.to_sv = b.to_sv))
      ∧ bis_lt foo6 foobar6 = true := by
  refine ⟨std_equal_iff _ _, ?_, lex_compare_iff _ _, ?_, lex_compare_iff _ _, ?_, ?_⟩
  · unfold bis_ne bis_eq
    rw [Bool.not_eq_eq_eq_not, Bool.not_true, ← Bool.not_eq_true,
      not_congr (std_equal_iff a.to_sv b.to_sv)]
  · unfold bis_le bis_lt
    rw [Bool.not_eq_eq_eq_not, Bool.not_true, ← Bool.not_eq_true,
      not_congr (lex_compare_iff b.to_sv a.to_sv),
      not_lex_iff a.to_sv b.to_sv]
  · unfold bis_ge bis_lt
    rw [Bool.not_eq_eq_eq_not, Bool.not_true, ← Bool.not_eq_true,
      not_congr (lex_compare_iff a.to_sv b.to_sv),
      not_lex_iff b.to_sv a.to_sv, @eq_comm (List Nat) b.to_sv a.to_sv]
  · decide

/-- Witness for C6: the concrete prefix ordering conjunct, extracted from the
theorem applied at the two fixtures. -/
theorem C6_witness : bis_lt foo6 foobar6 = true :=
  (C6_relational_compare_sequences foo6 foobar6).2.2.2.2.2.2

/-- C8 as stated is false on the code: an offset strictly beyond the source's
length does not yield an empty string — `std::basic_string_view::substr`
throws `std::out_of_range`, which propagates out of the delegating
constructor, so no object is constructed.  Concrete refutation: a capacity-4
instance built from the view `"ab"` (length 2) with `pos = 3`. -/
theorem C8_counterexample :
    construct_substr 4 [1, 1, 1, 1, 1] (by decide) (by decide) [97, 98] 3 1
      = .error cpp_error.out_of_range := by rfl

/-- C8 amended: the substring constructors follow the standard substring
rules of `basic_string_view::substr`: an offset strictly beyond the available
length raises an out-of-range error; an offset equal to the available length
yields the empty string; an in-range offset yields the substring whose count
is clamped to the available length starting at the offset (when it fits the
capacity). -/
theorem C8_substring_construction (MaxSize : Nat) (junk sv : List Nat)
    (hj : junk.length = MaxSize + 1) (hm : MaxSize ≤ 255) (pos n : Nat) :
    (sv.length < pos →
        construct_substr MaxSize junk hj hm sv pos n = .error cpp_error.out_of_range)
      ∧ (pos ≤ sv.length → ((sv.drop pos).take n).length ≤ MaxSize →
          ∃ st, construct_substr MaxSize junk hj hm sv pos n = .ok st
            ∧ st.to_sv = (sv.drop pos).take n)
      ∧ (pos = sv.length → (sv.drop pos).take n = [])
      ∧ (pos ≤ sv.length →
          ((sv.drop pos).take n).length = min n (sv.length - pos)) := by
  refine ⟨?_, ?_, ?_, ?_⟩
  · intro h
    unfold construct_substr sv_substr
    rw [if_pos (by omega)]
  · intro hpos hfit
    unfold construct_substr sv_substr
    rw [if_neg (by omega)]
    exact ⟨_, construct_ptr_count_eq MaxSize junk hj hm _ hfit,
      to_sv_assign_self ⟨junk, hj, hm⟩ _ hfit⟩
  · intro h
    subst h
    simp
  · intro hpos
    simp

/-- Witness for the amended C8 at concrete inputs: capacity 4, view
`"abc"`, offset 1, count 10 (clamped to 2). -/
theorem C8_witness :
    ∃ st, construct_substr 4 [1, 1, 1, 1, 1] (by decide) (by decide) [97, 98, 99] 1 10
        = .ok st ∧ st.to_sv = [98, 99] := by
  have h := C8_substring_construction 4 [1, 1, 1, 1, 1] [97, 98, 99]
    (by decide) (by decide) 1 10
  exact h.2.1 (by decide) (by decide)

end mp
